import Mathlib

/-!
Verification of the LinkageGraph forward-kinematics engine.

The embedding mirrors `LinkageGraph.js`: a `Config` value store of three
keyed maps (points, lengths, angles, modelled as association lists with
JavaScript `Map.get`/`Map.set` semantics), the `Motor` and `Passive`
segment kinds, the per-segment step `forwardSegment`, the fixed-point
driver `forwardConfig` and the assembler `forwardLinkage`.  JavaScript
numbers are modelled as real numbers; `Math.atan2 y x` is the principal
argument of the complex number `x + y i`.  Exceptions are modelled with
`Except String`; the driver's unbounded `while (progress)` loop is
modelled with explicit fuel, and the development proves that fuel
`segments.length + 1` always reaches the loop's exit.
-/

/-- A symbolic reference name (a JavaScript string key). -/
abbrev Ref := String

/-- A planar point with real coordinates. -/
structure Point where
  x : ℝ
  y : ℝ

/-- `Map.get`: the value bound to the first matching key, if any. -/
def mapGet {α : Type} (m : List (Ref × α)) (k : Ref) : Option α :=
  match m with
  | [] => none
  | (k', v) :: rest => if k' = k then some v else mapGet rest k

/-- `Map.set`: overwrite an existing binding in place, or append a new one. -/
def mapSet {α : Type} (m : List (Ref × α)) (k : Ref) (v : α) : List (Ref × α) :=
  match m with
  | [] => [(k, v)]
  | (k', v') :: rest => if k' = k then (k, v) :: rest else (k', v') :: mapSet rest k v

/-- The value store: three independent keyed maps (`type Config`). -/
structure Config where
  points : List (Ref × Point)
  lengths : List (Ref × ℝ)
  angles : List (Ref × ℝ)

/-- `getX`: strict lookup that throws `no value for key k` when absent. -/
def getX {α : Type} (m : List (Ref × α)) (k : Ref) : Except String α :=
  match mapGet m k with
  | some v => .ok v
  | none => .error ("no value for key " ++ k)

/-- `Math.atan2 y x`, modelled as the principal argument of `x + y i`. -/
noncomputable def atan2 (y x : ℝ) : ℝ := Complex.arg ⟨x, y⟩

/-- Input of a motor segment: a reference edge, a drive angle, a length. -/
structure MotorSegmentIn where
  p0 : Point
  p1 : Point
  theta : ℝ
  len : ℝ

/-- Output of a motor segment: the driven joint position. -/
structure MotorSegmentOut where
  p2 : Point

/-- Input of a passive segment: two points and two link lengths. -/
structure PassiveSegmentIn where
  p0 : Point
  p1 : Point
  len0 : ℝ
  len1 : ℝ

/-- Output of a passive segment: the apex of the rigid triangle. -/
structure PassiveSegmentOut where
  p2 : Point

/-- The reference set wiring a motor segment into the store. -/
structure MotorRefs where
  p0 : Ref
  p1 : Ref
  p2 : Ref
  theta : Ref
  len : Ref

/-- The reference set wiring a passive segment into the store. -/
structure PassiveRefs where
  p0 : Ref
  p1 : Ref
  p2 : Ref
  len0 : Ref
  len1 : Ref

/-- The segment-kind capability record (`type Segment<In, Out>`).
`getInput` distinguishes a thrown error (`Except.error`) from the
"not yet computable" result `null` (`Except.ok none`). -/
structure Segment (In Out R : Type) where
  getInput : Config → R → Except String (Option In)
  forward : In → Out
  setOutput : Config → R → Out → Config
  hasSetOutput : Config → R → Bool

/-- The `MotorSegment` kind.  All four inputs, the two points included,
are fetched with the strict `getX`; `hasSetOutput` is
`!!config.points.get(refs.p2)`, and a point object is always truthy. -/
noncomputable def MotorSegment : Segment MotorSegmentIn MotorSegmentOut MotorRefs where
  getInput config refs :=
    match getX config.points refs.p0 with
    | .error e => .error e
    | .ok p0 =>
      match getX config.points refs.p1 with
      | .error e => .error e
      | .ok p1 =>
        match getX config.angles refs.theta with
        | .error e => .error e
        | .ok theta =>
          match getX config.lengths refs.len with
          | .error e => .error e
          | .ok len => .ok (some ⟨p0, p1, theta, len⟩)
  forward i :=
    let alpha := atan2 (i.p1.y - i.p0.y) (i.p1.x - i.p0.x)
    ⟨⟨i.p0.x + i.len * Real.cos (alpha + i.theta),
      i.p0.y + i.len * Real.sin (alpha + i.theta)⟩⟩
  setOutput config refs output :=
    { config with points := mapSet config.points refs.p2 output.p2 }
  hasSetOutput config refs := (mapGet config.points refs.p2).isSome

/-- The `PassiveSegment` kind.  The two points are fetched with plain
`Map.get` and a missing one yields `null` (`ok none`); the two lengths
are fetched with the strict `getX`.  `Math.acos` is modelled by
`Real.arccos`. -/
noncomputable def PassiveSegment : Segment PassiveSegmentIn PassiveSegmentOut PassiveRefs where
  getInput config refs :=
    match mapGet config.points refs.p0, mapGet config.points refs.p1 with
    | some p0, some p1 =>
        (match getX config.lengths refs.len0 with
        | .error e => .error e
        | .ok len0 =>
          match getX config.lengths refs.len1 with
          | .error e => .error e
          | .ok len1 => .ok (some ⟨p0, p1, len0, len1⟩))
    | _, _ => .ok none
  forward i :=
    let alpha := atan2 (i.p1.y - i.p0.y) (i.p1.x - i.p0.x)
    let len2 := Real.sqrt ((i.p1.y - i.p0.y) ^ 2 + (i.p1.x - i.p0.x) ^ 2)
    let theta := Real.arccos ((i.len1 ^ 2 - i.len0 ^ 2 - len2 ^ 2) / (-2 * i.len0 * len2))
    ⟨⟨i.p0.x + i.len0 * Real.cos (alpha + theta),
      i.p0.y + i.len0 * Real.sin (alpha + theta)⟩⟩
  setOutput config refs output :=
    { config with points := mapSet config.points refs.p2 output.p2 }
  hasSetOutput config refs := (mapGet config.points refs.p2).isSome

/-- `forwardSegment`: try to compute one segment; `true` iff it was
computed now, in which case the output is recorded in the store. -/
def forwardSegment {In Out R : Type} (config : Config) (S : Segment In Out R) (refs : R) :
    Except String (Bool × Config) :=
  if S.hasSetOutput config refs then .ok (false, config)
  else
    match S.getInput config refs with
    | .error e => .error e
    | .ok none => .ok (false, config)
    | .ok (some input) => .ok (true, S.setOutput config refs (S.forward input))

/-- A segment tagged by kind (`type SegmentRefs`). -/
inductive SegmentRefs where
  | m (refs : MotorRefs)
  | p (refs : PassiveRefs)

/-- The kind dispatch in the driver's `switch` statement. -/
noncomputable def forwardSegmentRefs (config : Config) :
    SegmentRefs → Except String (Bool × Config)
  | .m refs => forwardSegment config MotorSegment refs
  | .p refs => forwardSegment config PassiveSegment refs

/-- One full sweep of the driver's `for` loop, carrying the `progress`
accumulator (`progress = forwardSegment(...) || progress`). -/
noncomputable def sweepFrom (progress : Bool) (config : Config) :
    List SegmentRefs → Except String (Bool × Config)
  | [] => .ok (progress, config)
  | seg :: rest =>
      match forwardSegmentRefs config seg with
      | .error e => .error e
      | .ok r => sweepFrom (r.1 || progress) r.2 rest

/-- One sweep starting, as each iteration of the `while` loop does, with
`progress = false`. -/
noncomputable def sweep (config : Config) (segments : List SegmentRefs) :
    Except String (Bool × Config) :=
  sweepFrom false config segments

/-- The driver's `while (progress)` loop with explicit fuel.  `ok none`
means the fuel ran out before a sweep without progress; the pair carries
the final store and the final value of the `computedSegments` counter,
which the source increments once per sweep that made progress. -/
noncomputable def loopSweeps : Nat → Config → List SegmentRefs → Nat →
    Except String (Option (Config × Nat))
  | 0, _, _, _ => .ok none
  | fuel + 1, config, segments, computed =>
      match sweep config segments with
      | .error e => .error e
      | .ok r =>
          if r.1 then loopSweeps fuel r.2 segments (computed + 1)
          else .ok (some (r.2, computed))

/-- `forwardConfig` run with explicit fuel: `none` when the fuel ran out,
otherwise the source's result — the final store on success, or the
`failed to compute all segments` error when the `computedSegments`
counter differs from the segment count. -/
noncomputable def forwardConfigFuel (fuel : Nat) (config : Config)
    (segments : List SegmentRefs) : Option (Except String Config) :=
  match loopSweeps fuel config segments 0 with
  | .error e => some (.error e)
  | .ok none => none
  | .ok (some (config', computed)) =>
      if computed = segments.length then some (.ok config')
      else some (.error "failed to compute all segments")

/-- `forwardConfig`, with fuel `segments.length + 1`; the development
proves below that this fuel always reaches the loop's exit, so the
default branch is never taken. -/
noncomputable def forwardConfig (config : Config) (segments : List SegmentRefs) :
    Except String Config :=
  (forwardConfigFuel (segments.length + 1) config segments).getD
    (.error "failed to compute all segments")

/-- A static linkage description (`type Linkage`). -/
structure Linkage where
  staticPoints : List (Ref × Point)
  lengths : List (Ref × ℝ)
  segments : List SegmentRefs

/-- `forwardLinkage`: seed a fresh store with the static points, the
fixed lengths and the caller's angles, then run the driver; on success
the resolved store is returned. -/
noncomputable def forwardLinkage (linkage : Linkage) (angles : List (Ref × ℝ)) :
    Except String Config :=
  let points := linkage.staticPoints.foldl (fun m kv => mapSet m kv.1 kv.2) []
  let lengths := linkage.lengths.foldl (fun m kv => mapSet m kv.1 kv.2) []
  forwardConfig ⟨points, lengths, angles⟩ linkage.segments

/-- The output reference of a segment (role `p2` for both kinds). -/
def outputRef : SegmentRefs → Ref
  | .m refs => refs.p2
  | .p refs => refs.p2

/-- A segment is resolved when its output reference is in the store. -/
def hasOutput (config : Config) (seg : SegmentRefs) : Bool :=
  (mapGet config.points (outputRef seg)).isSome

/-- The number of still-unresolved segments in a list. -/
def unresolvedCount (config : Config) (segments : List SegmentRefs) : Nat :=
  (segments.filter (fun seg => !hasOutput config seg)).length

/-- The Euclidean distance between two points, written as the source
writes the base length `len2`. -/
noncomputable def ptDist (p q : Point) : ℝ :=
  Real.sqrt ((q.y - p.y) ^ 2 + (q.x - p.x) ^ 2)

/-- A point as a complex number, for talking about directions. -/
def toC (p : Point) : ℂ := ⟨p.x, p.y⟩

/-- Reflection of `z` across the line through `p0` and `p1`. -/
noncomputable def reflectAcross (p0 p1 z : Point) : Point :=
  ⟨p0.x + (((p1.x - p0.x) ^ 2 - (p1.y - p0.y) ^ 2) * (z.x - p0.x) +
      2 * (p1.x - p0.x) * (p1.y - p0.y) * (z.y - p0.y)) /
      ((p1.x - p0.x) ^ 2 + (p1.y - p0.y) ^ 2),
   p0.y + (2 * (p1.x - p0.x) * (p1.y - p0.y) * (z.x - p0.x) -
      ((p1.x - p0.x) ^ 2 - (p1.y - p0.y) ^ 2) * (z.y - p0.y)) /
      ((p1.x - p0.x) ^ 2 + (p1.y - p0.y) ^ 2)⟩

/-! ### Lemmas about the keyed maps -/

theorem mapGet_nil {α : Type} (k : Ref) : mapGet ([] : List (Ref × α)) k = none := rfl

theorem mapGet_cons {α : Type} (k' : Ref) (v : α) (m : List (Ref × α)) (k : Ref) :
    mapGet ((k', v) :: m) k = if k' = k then some v else mapGet m k := rfl

theorem mapGet_mapSet {α : Type} (m : List (Ref × α)) (k r : Ref) (v : α) :
    mapGet (mapSet m k v) r = if k = r then some v else mapGet m r := by
  induction m with
  | nil =>
      by_cases hr : k = r <;> simp [mapSet, mapGet, hr]
  | cons kv rest ih =>
      obtain ⟨k', v'⟩ := kv
      by_cases h : k' = k
      · subst h
        by_cases hr : k' = r <;> simp [mapSet, mapGet, hr]
      · by_cases hr : k' = r
        · subst hr
          have hkr : ¬k = k' := fun hc => h hc.symm
          simp [mapSet, mapGet, h, hkr]
        · simp [mapSet, mapGet, h, hr, ih]

/-! ### Behaviour of one `forwardSegment` step -/

theorem forwardSegmentRefs_of_hasOutput (config : Config) (seg : SegmentRefs)
    (h : hasOutput config seg = true) :
    forwardSegmentRefs config seg = .ok (false, config) := by
  cases seg with
  | m refs =>
      simp only [hasOutput, outputRef] at h
      simp [forwardSegmentRefs, forwardSegment, MotorSegment, h]
  | p refs =>
      simp only [hasOutput, outputRef] at h
      simp [forwardSegmentRefs, forwardSegment, PassiveSegment, h]

theorem forwardSegmentRefs_false_eq (config : Config) (seg : SegmentRefs) (config' : Config)
    (h : forwardSegmentRefs config seg = .ok (false, config')) : config' = config := by
  cases seg with
  | m refs =>
      simp only [forwardSegmentRefs, forwardSegment] at h
      split at h
      · simp only [Except.ok.injEq, Prod.mk.injEq] at h
        exact h.2.symm
      · split at h
        · exact Except.noConfusion h
        · simp only [Except.ok.injEq, Prod.mk.injEq] at h
          exact h.2.symm
        · simp only [Except.ok.injEq, Prod.mk.injEq] at h
          exact Bool.noConfusion h.1
  | p refs =>
      simp only [forwardSegmentRefs, forwardSegment] at h
      split at h
      · simp only [Except.ok.injEq, Prod.mk.injEq] at h
        exact h.2.symm
      · split at h
        · exact Except.noConfusion h
        · simp only [Except.ok.injEq, Prod.mk.injEq] at h
          exact h.2.symm
        · simp only [Except.ok.injEq, Prod.mk.injEq] at h
          exact Bool.noConfusion h.1

theorem forwardSegmentRefs_preserves (config : Config) (seg : SegmentRefs)
    (b : Bool) (config' : Config)
    (h : forwardSegmentRefs config seg = .ok (b, config'))
    (r : Ref) (v : Point) (hr : mapGet config.points r = some v) :
    mapGet config'.points r = some v := by
  cases seg with
  | m refs =>
      simp only [forwardSegmentRefs, forwardSegment] at h
      split at h
      · simp only [Except.ok.injEq, Prod.mk.injEq] at h
        rw [← h.2]; exact hr
      · rename_i hout
        split at h
        · exact Except.noConfusion h
        · simp only [Except.ok.injEq, Prod.mk.injEq] at h
          rw [← h.2]; exact hr
        · simp only [Except.ok.injEq, Prod.mk.injEq] at h
          rw [← h.2]
          simp only [MotorSegment] at hout ⊢
          rw [mapGet_mapSet]
          have hp2 : mapGet config.points refs.p2 = none := by
            cases hmg : mapGet config.points refs.p2 with
            | none => rfl
            | some w => rw [hmg] at hout; simp at hout
          have hne : ¬ refs.p2 = r := fun hc => by rw [hc, hr] at hp2; cases hp2
          rw [if_neg hne]; exact hr
  | p refs =>
      simp only [forwardSegmentRefs, forwardSegment] at h
      split at h
      · simp only [Except.ok.injEq, Prod.mk.injEq] at h
        rw [← h.2]; exact hr
      · rename_i hout
        split at h
        · exact Except.noConfusion h
        · simp only [Except.ok.injEq, Prod.mk.injEq] at h
          rw [← h.2]; exact hr
        · simp only [Except.ok.injEq, Prod.mk.injEq] at h
          rw [← h.2]
          simp only [PassiveSegment] at hout ⊢
          rw [mapGet_mapSet]
          have hp2 : mapGet config.points refs.p2 = none := by
            cases hmg : mapGet config.points refs.p2 with
            | none => rfl
            | some w => rw [hmg] at hout; simp at hout
          have hne : ¬ refs.p2 = r := fun hc => by rw [hc, hr] at hp2; cases hp2
          rw [if_neg hne]; exact hr

theorem forwardSegmentRefs_true (config : Config) (seg : SegmentRefs) (config' : Config)
    (h : forwardSegmentRefs config seg = .ok (true, config')) :
    hasOutput config seg = false ∧ hasOutput config' seg = true := by
  cases seg with
  | m refs =>
      simp only [forwardSegmentRefs, forwardSegment] at h
      split at h
      · simp only [Except.ok.injEq, Prod.mk.injEq] at h
        exact Bool.noConfusion h.1
      · rename_i hout
        split at h
        · exact Except.noConfusion h
        · simp only [Except.ok.injEq, Prod.mk.injEq] at h
          exact Bool.noConfusion h.1
        · simp only [Except.ok.injEq, Prod.mk.injEq] at h
          constructor
          · simp only [hasOutput, outputRef, MotorSegment] at hout ⊢
            simpa using hout
          · rw [← h.2]
            simp [hasOutput, outputRef, MotorSegment, mapGet_mapSet]
  | p refs =>
      simp only [forwardSegmentRefs, forwardSegment] at h
      split at h
      · simp only [Except.ok.injEq, Prod.mk.injEq] at h
        exact Bool.noConfusion h.1
      · rename_i hout
        split at h
        · exact Except.noConfusion h
        · simp only [Except.ok.injEq, Prod.mk.injEq] at h
          exact Bool.noConfusion h.1
        · simp only [Except.ok.injEq, Prod.mk.injEq] at h
          constructor
          · simp only [hasOutput, outputRef, PassiveSegment] at hout ⊢
            simpa using hout
          · rw [← h.2]
            simp [hasOutput, outputRef, PassiveSegment, mapGet_mapSet]

/-! ### Behaviour of one sweep -/

theorem sweepFrom_preserves (segs : List SegmentRefs) :
    ∀ (pr : Bool) (config : Config) (pr' : Bool) (config' : Config),
    sweepFrom pr config segs = .ok (pr', config') →
    ∀ (r : Ref) (v : Point), mapGet config.points r = some v →
    mapGet config'.points r = some v := by
  induction segs with
  | nil =>
      intro pr config pr' config' h r v hr
      simp only [sweepFrom, Except.ok.injEq, Prod.mk.injEq] at h
      rw [← h.2]; exact hr
  | cons seg rest ih =>
      intro pr config pr' config' h r v hr
      simp only [sweepFrom] at h
      cases hstep : forwardSegmentRefs config seg with
      | error e => rw [hstep] at h; exact Except.noConfusion h
      | ok b =>
          rw [hstep] at h
          exact ih _ _ _ _ h r v
            (forwardSegmentRefs_preserves config seg b.1 b.2 (by rw [hstep]) r v hr)

theorem sweepFrom_hasOutput_mono (segs : List SegmentRefs) (pr : Bool) (config : Config)
    (pr' : Bool) (config' : Config) (h : sweepFrom pr config segs = .ok (pr', config'))
    (seg : SegmentRefs) (hs : hasOutput config seg = true) : hasOutput config' seg = true := by
  simp only [hasOutput, Option.isSome_iff_exists] at hs ⊢
  obtain ⟨v, hv⟩ := hs
  exact ⟨v, sweepFrom_preserves segs pr config pr' config' h (outputRef seg) v hv⟩

theorem sweepFrom_progress (segs : List SegmentRefs) :
    ∀ (pr : Bool) (config : Config) (config' : Config),
    sweepFrom pr config segs = .ok (true, config') →
    pr = true ∨ ∃ seg ∈ segs, hasOutput config seg = false ∧ hasOutput config' seg = true := by
  induction segs with
  | nil =>
      intro pr config config' h
      simp only [sweepFrom, Except.ok.injEq, Prod.mk.injEq] at h
      exact Or.inl h.1
  | cons seg rest ih =>
      intro pr config config' h
      simp only [sweepFrom] at h
      cases hstep : forwardSegmentRefs config seg with
      | error e => rw [hstep] at h; exact Except.noConfusion h
      | ok b =>
          obtain ⟨bb, c1⟩ := b
          rw [hstep] at h
          cases bb with
          | true =>
              obtain ⟨hbefore, hafter⟩ := forwardSegmentRefs_true config seg c1 hstep
              refine Or.inr ⟨seg, List.mem_cons_self seg rest, hbefore, ?_⟩
              exact sweepFrom_hasOutput_mono rest (true || pr) c1 true config' h seg hafter
          | false =>
              have hc1 : c1 = config := forwardSegmentRefs_false_eq config seg c1 hstep
              have h' : sweepFrom (false || pr) c1 rest = .ok (true, config') := h
              rw [hc1, Bool.false_or] at h'
              rcases ih pr config config' h' with hpr | ⟨s, hmem, h1, h2⟩
              · exact Or.inl hpr
              · exact Or.inr ⟨s, List.mem_cons_of_mem seg hmem, h1, h2⟩

/-! ### The unresolved-segment count strictly decreases on progress -/

theorem unresolvedCount_mono (config config' : Config)
    (hmono : ∀ s : SegmentRefs, hasOutput config s = true → hasOutput config' s = true) :
    ∀ L : List SegmentRefs, unresolvedCount config' L ≤ unresolvedCount config L := by
  intro L
  induction L with
  | nil => simp [unresolvedCount]
  | cons a rest ih =>
      simp only [unresolvedCount] at ih ⊢
      cases ha : hasOutput config a with
      | true =>
          simp only [List.filter_cons, ha, hmono a ha, Bool.not_true]
          simp <;> omega
      | false =>
          cases ha' : hasOutput config' a with
          | true =>
              simp only [List.filter_cons, ha, ha', Bool.not_true, Bool.not_false]
              simp <;> omega
          | false =>
              simp only [List.filter_cons, ha, ha', Bool.not_true, Bool.not_false]
              simp <;> omega

theorem unresolvedCount_strict (config config' : Config)
    (hmono : ∀ s : SegmentRefs, hasOutput config s = true → hasOutput config' s = true)
    (s0 : SegmentRefs) (h1 : hasOutput config s0 = false) (h2 : hasOutput config' s0 = true) :
    ∀ L : List SegmentRefs, s0 ∈ L → unresolvedCount config' L < unresolvedCount config L := by
  intro L
  induction L with
  | nil => intro hmem; cases hmem
  | cons a rest ih =>
      intro hmem
      have hm := unresolvedCount_mono config config' hmono rest
      simp only [unresolvedCount] at ih hm ⊢
      rcases List.mem_cons.mp hmem with rfl | hmem'
      · simp only [List.filter_cons, h1, h2, Bool.not_true, Bool.not_false]
        simp <;> omega
      · have hrest := ih hmem'
        cases ha : hasOutput config a with
        | true =>
            simp only [List.filter_cons, ha, hmono a ha, Bool.not_true]
            simp <;> omega
        | false =>
            cases ha' : hasOutput config' a with
            | true =>
                simp only [List.filter_cons, ha, ha', Bool.not_true, Bool.not_false]
                simp <;> omega
            | false =>
                simp only [List.filter_cons, ha, ha', Bool.not_true, Bool.not_false]
                simp <;> omega

theorem sweep_decreases (config config' : Config) (segments : List SegmentRefs)
    (h : sweep config segments = .ok (true, config')) :
    unresolvedCount config' segments < unresolvedCount config segments := by
  have hmono : ∀ s : SegmentRefs, hasOutput config s = true → hasOutput config' s = true :=
    fun s hs => sweepFrom_hasOutput_mono segments false config true config' h s hs
  rcases sweepFrom_progress segments false config config' h with hpr | ⟨s0, hmem, h1, h2⟩
  · exact Bool.noConfusion hpr
  · exact unresolvedCount_strict config config' hmono s0 h1 h2 segments hmem

/-! ### The sweep loop always reaches its exit within `length + 1` sweeps -/

theorem loopSweeps_ne_none (segments : List SegmentRefs) :
    ∀ (fuel : Nat) (config : Config) (computed : Nat),
    unresolvedCount config segments < fuel →
    loopSweeps fuel config segments computed ≠ .ok none := by
  intro fuel
  induction fuel with
  | zero => intro config computed h; exact absurd h (Nat.not_lt_zero _)
  | succ fuel ih =>
      intro config computed h
      simp only [loopSweeps]
      cases hsw : sweep config segments with
      | error e => intro hc; exact Except.noConfusion hc
      | ok r =>
          obtain ⟨bb, c'⟩ := r
          cases bb with
          | true =>
              have hlt : unresolvedCount c' segments < fuel :=
                Nat.lt_of_lt_of_le (sweep_decreases config c' segments hsw)
                  (Nat.lt_succ_iff.mp h)
              simpa using ih c' (computed + 1) hlt
          | false =>
              intro hc
              simp only [if_neg (Bool.false_ne_true)] at hc
              exact Option.noConfusion (Except.ok.inj hc)

theorem forwardConfigFuel_total (config : Config) (segments : List SegmentRefs) :
    ∃ result, forwardConfigFuel (segments.length + 1) config segments = some result := by
  have hcount : unresolvedCount config segments < segments.length + 1 :=
    Nat.lt_succ_of_le (List.length_filter_le _ _)
  have hne := loopSweeps_ne_none segments (segments.length + 1) config 0 hcount
  unfold forwardConfigFuel
  cases hls : loopSweeps (segments.length + 1) config segments 0 with
  | error e => exact ⟨.error e, rfl⟩
  | ok o =>
      cases o with
      | none => exact absurd hls hne
      | some rc =>
          obtain ⟨config', computed⟩ := rc
          by_cases hc : computed = segments.length
          · refine ⟨.ok config', ?_⟩
            simp [hc]
          · refine ⟨.error "failed to compute all segments", ?_⟩
            simp [hc]

/-! ### The direction cosines of `atan2` -/

theorem atan2_cos (y x : ℝ) (h : ¬(x = 0 ∧ y = 0)) :
    Real.cos (atan2 y x) = x / Real.sqrt (x ^ 2 + y ^ 2) := by
  have hz : (⟨x, y⟩ : ℂ) ≠ 0 := by
    simp only [ne_eq, Complex.ext_iff, Complex.zero_re, Complex.zero_im]
    exact h
  have habs : Complex.abs ⟨x, y⟩ = Real.sqrt (x ^ 2 + y ^ 2) := by
    rw [Complex.abs_apply, Complex.normSq_mk]
    ring_nf
  rw [atan2, Complex.cos_arg hz, habs]

theorem atan2_sin (y x : ℝ) :
    Real.sin (atan2 y x) = y / Real.sqrt (x ^ 2 + y ^ 2) := by
  have habs : Complex.abs ⟨x, y⟩ = Real.sqrt (x ^ 2 + y ^ 2) := by
    rw [Complex.abs_apply, Complex.normSq_mk]
    ring_nf
  rw [atan2, Complex.sin_arg, habs]

/-! ### Concrete geometry of the square linkage -/

theorem motor_forward_square :
    MotorSegment.forward ⟨⟨0, 0⟩, ⟨1, 0⟩, Real.pi / 2, 1⟩ = ⟨⟨0, 1⟩⟩ := by
  show (⟨⟨0 + 1 * Real.cos (atan2 ((0:ℝ) - 0) ((1:ℝ) - 0) + Real.pi / 2),
         0 + 1 * Real.sin (atan2 ((0:ℝ) - 0) ((1:ℝ) - 0) + Real.pi / 2)⟩⟩ : MotorSegmentOut) =
    ⟨⟨0, 1⟩⟩
  have ha : atan2 ((0:ℝ) - 0) ((1:ℝ) - 0) = 0 := by
    rw [atan2]
    have hone : (⟨(1:ℝ) - 0, (0:ℝ) - 0⟩ : ℂ) = 1 := by
      simp [Complex.ext_iff]
    rw [hone, Complex.arg_one]
  rw [ha]
  simp only [zero_add]
  rw [Real.cos_pi_div_two, Real.sin_pi_div_two]
  simp only [MotorSegmentOut.mk.injEq, Point.mk.injEq]
  norm_num

theorem passive_forward_square :
    PassiveSegment.forward ⟨⟨0, 1⟩, ⟨1, 0⟩, 1, 1⟩ = ⟨⟨1, 1⟩⟩ := by
  have h2 : Real.sqrt 2 * Real.sqrt 2 = 2 := Real.mul_self_sqrt (by norm_num)
  have h2nn : (0:ℝ) ≤ Real.sqrt 2 := Real.sqrt_nonneg 2
  have h2pos : (0:ℝ) < Real.sqrt 2 := by nlinarith
  have h2ne : Real.sqrt 2 ≠ 0 := ne_of_gt h2pos
  have hbase : Real.sqrt (((0:ℝ) - 1) ^ 2 + ((1:ℝ) - 0) ^ 2) = Real.sqrt 2 := by norm_num
  have hq : ((1:ℝ) ^ 2 - 1 ^ 2 - Real.sqrt 2 ^ 2) / (-2 * 1 * Real.sqrt 2) =
      1 / Real.sqrt 2 := by
    rw [Real.sq_sqrt (by norm_num : (0:ℝ) ≤ 2)]
    rw [div_eq_div_iff (mul_ne_zero (by norm_num : ((-2:ℝ) * 1) ≠ 0) h2ne) h2ne]
    ring
  have hb1 : (-1:ℝ) ≤ 1 / Real.sqrt 2 := by
    have : (0:ℝ) < 1 / Real.sqrt 2 := by positivity
    linarith
  have hb2 : (1:ℝ) / Real.sqrt 2 ≤ 1 := by
    rw [div_le_one h2pos]
    nlinarith
  have hcost : Real.cos (Real.arccos (1 / Real.sqrt 2)) = 1 / Real.sqrt 2 :=
    Real.cos_arccos hb1 hb2
  have hsint : Real.sin (Real.arccos (1 / Real.sqrt 2)) = 1 / Real.sqrt 2 := by
    rw [Real.sin_arccos]
    have hh : (1:ℝ) - (1 / Real.sqrt 2) ^ 2 = (1 / Real.sqrt 2) ^ 2 := by
      rw [div_pow, one_pow, sq, h2]
      norm_num
    rw [hh, Real.sqrt_sq (by positivity)]
  have hca : Real.cos (atan2 ((0:ℝ) - 1) ((1:ℝ) - 0)) = 1 / Real.sqrt 2 := by
    rw [atan2_cos _ _ (by norm_num)]
    norm_num
  have hsa : Real.sin (atan2 ((0:ℝ) - 1) ((1:ℝ) - 0)) = -(1 / Real.sqrt 2) := by
    rw [atan2_sin]
    norm_num
    ring
  simp only [PassiveSegment]
  rw [hbase, hq, Real.cos_add, Real.sin_add, hca, hsa, hcost, hsint]
  simp only [PassiveSegmentOut.mk.injEq, Point.mk.injEq]
  constructor
  · field_simp
  · field_simp

/-! ### The square-linkage scenario -/

def squareMotorRefs : MotorRefs := ⟨"p0", "p1", "p2", "theta0", "len0"⟩

def squarePassiveRefs : PassiveRefs := ⟨"p2", "p1", "p3", "len1", "len2"⟩

/-- The square linkage's segment list in the order the repository's test
writes it: the motor first, then the passive segment that consumes the
motor's output. -/
def squareSegments : List SegmentRefs := [.m squareMotorRefs, .p squarePassiveRefs]

/-- The same two segments in the opposite order. -/
def squareSegmentsRev : List SegmentRefs := [.p squarePassiveRefs, .m squareMotorRefs]

/-- The seeded store of the square-linkage scenario. -/
noncomputable def squareConfig : Config :=
  ⟨[("p0", ⟨0, 0⟩), ("p1", ⟨1, 0⟩)],
   [("len0", 1), ("len1", 1), ("len2", 1)],
   [("theta0", Real.pi / 2)]⟩

/-- The store after the motor segment has resolved. -/
noncomputable def squareConfig1 : Config :=
  ⟨[("p0", ⟨0, 0⟩), ("p1", ⟨1, 0⟩), ("p2", ⟨0, 1⟩)],
   [("len0", 1), ("len1", 1), ("len2", 1)],
   [("theta0", Real.pi / 2)]⟩

/-- The store after both segments have resolved. -/
noncomputable def squareFinal : Config :=
  ⟨[("p0", ⟨0, 0⟩), ("p1", ⟨1, 0⟩), ("p2", ⟨0, 1⟩), ("p3", ⟨1, 1⟩)],
   [("len0", 1), ("len1", 1), ("len2", 1)],
   [("theta0", Real.pi / 2)]⟩

/-- The square linkage itself, as the repository's test constructs it. -/
noncomputable def squareLinkage : Linkage :=
  ⟨[("p0", ⟨0, 0⟩), ("p1", ⟨1, 0⟩)],
   [("len0", 1), ("len1", 1), ("len2", 1)],
   squareSegments⟩

/-- The caller-supplied drive angles of the scenario. -/
noncomputable def squareAngles : List (Ref × ℝ) := [("theta0", Real.pi / 2)]

theorem step_motor_square :
    forwardSegmentRefs squareConfig (.m squareMotorRefs) = .ok (true, squareConfig1) := by
  have hget : MotorSegment.getInput squareConfig squareMotorRefs =
      .ok (some ⟨⟨0, 0⟩, ⟨1, 0⟩, Real.pi / 2, 1⟩) := by
    simp [MotorSegment, squareConfig, squareMotorRefs, getX, mapGet]
  have hset : MotorSegment.setOutput squareConfig squareMotorRefs
      (MotorSegment.forward ⟨⟨0, 0⟩, ⟨1, 0⟩, Real.pi / 2, 1⟩) = squareConfig1 := by
    rw [motor_forward_square]
    simp [MotorSegment, squareConfig, squareConfig1, squareMotorRefs, mapSet]
  simp only [forwardSegmentRefs, forwardSegment, hget, hset]
  simp [MotorSegment, squareConfig, squareMotorRefs, mapGet]

theorem step_passive_pending :
    forwardSegmentRefs squareConfig (.p squarePassiveRefs) = .ok (false, squareConfig) := by
  simp only [forwardSegmentRefs, forwardSegment]
  simp [PassiveSegment, squareConfig, squarePassiveRefs, mapGet]

theorem step_passive_square :
    forwardSegmentRefs squareConfig1 (.p squarePassiveRefs) = .ok (true, squareFinal) := by
  have hget : PassiveSegment.getInput squareConfig1 squarePassiveRefs =
      .ok (some ⟨⟨0, 1⟩, ⟨1, 0⟩, 1, 1⟩) := by
    simp [PassiveSegment, squareConfig1, squarePassiveRefs, getX, mapGet]
  have hset : PassiveSegment.setOutput squareConfig1 squarePassiveRefs
      (PassiveSegment.forward ⟨⟨0, 1⟩, ⟨1, 0⟩, 1, 1⟩) = squareFinal := by
    rw [passive_forward_square]
    simp [PassiveSegment, squareConfig1, squareFinal, squarePassiveRefs, mapSet]
  simp only [forwardSegmentRefs, forwardSegment, hget, hset]
  simp [PassiveSegment, squareConfig1, squarePassiveRefs, mapGet]

theorem step_motor_done1 :
    forwardSegmentRefs squareConfig1 (.m squareMotorRefs) = .ok (false, squareConfig1) := by
  simp only [forwardSegmentRefs, forwardSegment]
  simp [MotorSegment, squareConfig1, squareMotorRefs, mapGet]

theorem step_motor_doneF :
    forwardSegmentRefs squareFinal (.m squareMotorRefs) = .ok (false, squareFinal) := by
  simp only [forwardSegmentRefs, forwardSegment]
  simp [MotorSegment, squareFinal, squareMotorRefs, mapGet]

theorem step_passive_doneF :
    forwardSegmentRefs squareFinal (.p squarePassiveRefs) = .ok (false, squareFinal) := by
  simp only [forwardSegmentRefs, forwardSegment]
  simp [PassiveSegment, squareFinal, squarePassiveRefs, mapGet]

theorem sweep_square1 : sweep squareConfig squareSegments = .ok (true, squareFinal) := by
  simp [sweep, sweepFrom, squareSegments, step_motor_square, step_passive_square]

theorem sweep_squareF : sweep squareFinal squareSegments = .ok (false, squareFinal) := by
  simp [sweep, sweepFrom, squareSegments, step_motor_doneF, step_passive_doneF]

theorem sweep_rev1 : sweep squareConfig squareSegmentsRev = .ok (true, squareConfig1) := by
  simp [sweep, sweepFrom, squareSegmentsRev, step_passive_pending, step_motor_square]

theorem sweep_rev2 : sweep squareConfig1 squareSegmentsRev = .ok (true, squareFinal) := by
  simp [sweep, sweepFrom, squareSegmentsRev, step_passive_square, step_motor_doneF]

theorem sweep_revF : sweep squareFinal squareSegmentsRev = .ok (false, squareFinal) := by
  simp [sweep, sweepFrom, squareSegmentsRev, step_motor_doneF, step_passive_doneF]

theorem loopSweeps_succ (fuel : Nat) (config : Config) (segments : List SegmentRefs)
    (computed : Nat) :
    loopSweeps (fuel + 1) config segments computed =
      match sweep config segments with
      | .error e => .error e
      | .ok r =>
          if r.1 then loopSweeps fuel r.2 segments (computed + 1)
          else .ok (some (r.2, computed)) := rfl

theorem loop_square :
    loopSweeps 3 squareConfig squareSegments 0 = .ok (some (squareFinal, 1)) := by
  have s1 := loopSweeps_succ 2 squareConfig squareSegments 0
  rw [sweep_square1] at s1
  simp only [] at s1
  have s2 := loopSweeps_succ 1 squareFinal squareSegments 1
  rw [sweep_squareF] at s2
  simp only [] at s2
  simp at s1 s2
  exact s1.trans s2

theorem loop_squareRev :
    loopSweeps 3 squareConfig squareSegmentsRev 0 = .ok (some (squareFinal, 2)) := by
  have s1 := loopSweeps_succ 2 squareConfig squareSegmentsRev 0
  rw [sweep_rev1] at s1
  have s2 := loopSweeps_succ 1 squareConfig1 squareSegmentsRev 1
  rw [sweep_rev2] at s2
  have s3 := loopSweeps_succ 0 squareFinal squareSegmentsRev 2
  rw [sweep_revF] at s3
  simp at s1 s2 s3
  exact (s1.trans s2).trans s3

theorem forwardConfig_square :
    forwardConfig squareConfig squareSegments = .error "failed to compute all segments" := by
  unfold forwardConfig forwardConfigFuel
  have hlen : squareSegments.length = 2 := rfl
  rw [hlen]
  rw [show loopSweeps (2 + 1) squareConfig squareSegments 0 =
      .ok (some (squareFinal, 1)) from loop_square]
  simp [hlen]

theorem forwardConfig_squareRev :
    forwardConfig squareConfig squareSegmentsRev = .ok squareFinal := by
  unfold forwardConfig forwardConfigFuel
  have hlen : squareSegmentsRev.length = 2 := rfl
  rw [hlen]
  rw [show loopSweeps (2 + 1) squareConfig squareSegmentsRev 0 =
      .ok (some (squareFinal, 2)) from loop_squareRev]
  simp [hlen]

theorem forwardLinkage_square :
    forwardLinkage squareLinkage squareAngles = .error "failed to compute all segments" := by
  unfold forwardLinkage
  have hseed : (⟨squareLinkage.staticPoints.foldl (fun m kv => mapSet m kv.1 kv.2) [],
      squareLinkage.lengths.foldl (fun m kv => mapSet m kv.1 kv.2) [],
      squareAngles⟩ : Config) = squareConfig := by
    simp [squareLinkage, squareAngles, squareConfig, mapSet]
  dsimp only
  rw [hseed]
  exact forwardConfig_square

/-! ### Small concrete stores for witnesses and counterexamples -/

/-- A store holding one point bound to `a` and nothing else. -/
noncomputable def witnessConfig : Config := ⟨[("a", ⟨5, 6⟩)], [], []⟩

/-- A motor segment whose output reference `a` is already bound. -/
def witnessMotorRefs : MotorRefs := ⟨"x", "y", "a", "t", "l"⟩

/-- A passive segment with unbound point inputs and unbound output. -/
def witnessPassiveRefs : PassiveRefs := ⟨"x", "y", "b", "l0", "l1"⟩

/-- The empty store. -/
def emptyConfig : Config := ⟨[], [], []⟩

/-- Motor reference set used on the empty store. -/
def motorRefsC7 : MotorRefs := ⟨"mp0", "mp1", "mq", "mt", "ml"⟩

/-! ### Claims about the fixed-point driver -/

/-- Claim C1: the claim says forwardConfig fails exactly when some segment
remains unresolved.  The code instead compares the number of *sweeps that
made progress* with the segment count: on the square scenario both
segments resolve during the single progressing sweep (the final store
holds both outputs and the loop exits with counter 1), yet `forwardConfig`
throws `failed to compute all segments`.  This contradicts the
repository's own square-linkage test; the claim describes the intent and
the code has the bug. -/
theorem claim_C1_fail_iff_unresolved :
    hasOutput squareFinal (SegmentRefs.m squareMotorRefs) = true ∧
    hasOutput squareFinal (SegmentRefs.p squarePassiveRefs) = true ∧
    loopSweeps 3 squareConfig squareSegments 0 = .ok (some (squareFinal, 1)) ∧
    forwardConfig squareConfig squareSegments =
      .error "failed to compute all segments" :=
  ⟨rfl, rfl, loop_square, forwardConfig_square⟩

/-- Claim C2: on the square-linkage scenario the engine computes
`p2 = (0, 1)` and `p3 = (1, 1)` exactly as the claim states — both are in
the store when the loop stops — but `forwardLinkage` then throws
`failed to compute all segments` instead of returning that store, because
the driver counted one progressing sweep against two segments. -/
theorem claim_C2_square_linkage :
    mapGet squareFinal.points "p2" = some ⟨0, 1⟩ ∧
    mapGet squareFinal.points "p3" = some ⟨1, 1⟩ ∧
    loopSweeps 3 squareConfig squareSegments 0 = .ok (some (squareFinal, 1)) ∧
    forwardLinkage squareLinkage squareAngles =
      .error "failed to compute all segments" :=
  ⟨rfl, rfl, loop_square, forwardLinkage_square⟩

/-- Claim C3: permuting the square scenario's two segments changes the
outcome.  In the test's order (motor first) both segments resolve in one
sweep and the driver throws; in the reversed order the two segments
resolve in two separate sweeps, so the sweep counter reaches 2 and the
driver returns the fully resolved store. -/
theorem claim_C3_order_dependence :
    forwardConfig squareConfig squareSegments =
      .error "failed to compute all segments" ∧
    forwardConfig squareConfig squareSegmentsRev = .ok squareFinal ∧
    mapGet squareFinal.points "p2" = some ⟨0, 1⟩ ∧
    mapGet squareFinal.points "p3" = some ⟨1, 1⟩ :=
  ⟨forwardConfig_square, forwardConfig_squareRev, rfl, rfl⟩

/-- Claim C7: the claim that *every* Segment Kind's input gathering
returns "absent" on a missing point input is false for the Motor kind,
which fetches its points with the strict lookup: on the empty store with
`mp0` unbound, `MotorSegment.getInput` throws `no value for key mp0`
instead of returning the absent value. -/
theorem claim_C7_counterexample :
    mapGet emptyConfig.points motorRefsC7.p0 = none ∧
    MotorSegment.getInput emptyConfig motorRefsC7 =
      .error ("no value for key " ++ motorRefsC7.p0) ∧
    MotorSegment.getInput emptyConfig motorRefsC7 ≠ .ok none := by
  refine ⟨rfl, rfl, ?_⟩
  intro h
  have hr : MotorSegment.getInput emptyConfig motorRefsC7 =
      .error ("no value for key " ++ motorRefsC7.p0) := rfl
  exact Except.noConfusion (hr.symm.trans h)

/-- A store binding only the reference `mp0`, leaving `mp1` unbound. -/
noncomputable def motorConfigC7 : Config := ⟨[("mp0", ⟨1, 2⟩)], [], []⟩

/-- Claim C7 (amended): only the Passive kind returns the absent value
(`ok none`) when one of its point inputs is not yet present; the Motor
kind fetches both of its points with the strict lookup, so a missing
`p0` throws naming the `p0` reference, and a present `p0` with a
missing `p1` throws naming the `p1` reference, just as missing lengths
or angles throw for either kind. -/
theorem claim_C7_amended :
    (∀ (config : Config) (refs : PassiveRefs),
      mapGet config.points refs.p0 = none ∨ mapGet config.points refs.p1 = none →
      PassiveSegment.getInput config refs = .ok none) ∧
    (∀ (config : Config) (refs : MotorRefs),
      mapGet config.points refs.p0 = none →
      MotorSegment.getInput config refs = .error ("no value for key " ++ refs.p0)) ∧
    (∀ (config : Config) (refs : MotorRefs) (p0v : Point),
      mapGet config.points refs.p0 = some p0v →
      mapGet config.points refs.p1 = none →
      MotorSegment.getInput config refs = .error ("no value for key " ++ refs.p1)) := by
  refine ⟨?_, ?_, ?_⟩
  · intro config refs h
    rcases h with h | h
    · simp [PassiveSegment, h]
    · cases h0 : mapGet config.points refs.p0 with
      | none => simp [PassiveSegment, h0]
      | some p0 => simp [PassiveSegment, h0, h]
  · intro config refs h
    simp [MotorSegment, getX, h]
  · intro config refs p0v h0 h1
    simp [MotorSegment, getX, h0, h1]

/-- Witness for the amended C7: on the empty store the Passive kind
returns the absent value and the Motor kind throws naming `mp0`; on a
store binding only `mp0`, the Motor kind throws naming `mp1`. -/
theorem claim_C7_witness :
    PassiveSegment.getInput emptyConfig witnessPassiveRefs = .ok none ∧
    MotorSegment.getInput emptyConfig motorRefsC7 =
      .error ("no value for key " ++ motorRefsC7.p0) ∧
    MotorSegment.getInput motorConfigC7 motorRefsC7 =
      .error ("no value for key " ++ motorRefsC7.p1) :=
  ⟨claim_C7_amended.1 emptyConfig witnessPassiveRefs (Or.inl rfl),
   claim_C7_amended.2.1 emptyConfig motorRefsC7 rfl,
   claim_C7_amended.2.2 motorConfigC7 motorRefsC7 ⟨1, 2⟩ rfl rfl⟩

/-- Claim C8: the sweep loop always terminates: with fuel
`segments.length + 1` the fuelled loop never runs out, because every
sweep that makes progress strictly shrinks the set of unresolved
segments, so the run completes (successfully or with an error) within
`segments.length + 1` sweeps, for every store and segment list. -/
theorem claim_C8_termination (config : Config) (segments : List SegmentRefs) :
    ∃ result, forwardConfigFuel (segments.length + 1) config segments = some result :=
  forwardConfigFuel_total config segments

/-- Claim C9: the store is write-once during a run: any point binding
survives any `forwardSegment` step unchanged, and a step on a segment
whose output reference is already bound returns `false` and leaves the
store exactly as it was. -/
theorem claim_C9_write_once (config : Config) (seg : SegmentRefs) :
    (∀ (b : Bool) (config' : Config), forwardSegmentRefs config seg = .ok (b, config') →
      ∀ (r : Ref) (v : Point), mapGet config.points r = some v →
        mapGet config'.points r = some v) ∧
    (hasOutput config seg = true → forwardSegmentRefs config seg = .ok (false, config)) := by
  constructor
  · intro b config' h r v hv
    exact forwardSegmentRefs_preserves config seg b config' h r v hv
  · intro h
    exact forwardSegmentRefs_of_hasOutput config seg h

/-- Witness for C9: on a store binding `a ↦ (5, 6)`, the step on a motor
segment whose output is `a` returns `false` and the untouched store, and
a step on a still-pending passive segment preserves the binding of `a`. -/
theorem claim_C9_witness :
    forwardSegmentRefs witnessConfig (.m witnessMotorRefs) = .ok (false, witnessConfig) ∧
    mapGet witnessConfig.points "a" = some ⟨5, 6⟩ :=
  ⟨(claim_C9_write_once witnessConfig (.m witnessMotorRefs)).2 rfl,
   (claim_C9_write_once witnessConfig (.p witnessPassiveRefs)).1 false witnessConfig rfl
     "a" ⟨5, 6⟩ rfl⟩

/-- Claim C10: on the empty segment list the first sweep makes no
progress, the loop stops with the counter at zero, zero equals the
segment count, and `forwardConfig` returns the store unchanged. -/
theorem claim_C10_empty_segments (config : Config) :
    forwardConfig config [] = .ok config := rfl

/-! ### Scalar helpers for the passive-segment geometry -/

theorem base_len_pos (dx dy : ℝ) (hd : ¬(dx = 0 ∧ dy = 0)) :
    0 < Real.sqrt (dy ^ 2 + dx ^ 2) := by
  apply Real.sqrt_pos.mpr
  rcases not_and_or.mp hd with h | h
  · have := pow_two_pos_of_ne_zero h
    nlinarith [sq_nonneg dy]
  · have := pow_two_pos_of_ne_zero h
    nlinarith [sq_nonneg dx]

theorem cos_atan2_base (dy dx : ℝ) (hd : ¬(dx = 0 ∧ dy = 0)) :
    Real.cos (atan2 dy dx) = dx / Real.sqrt (dy ^ 2 + dx ^ 2) := by
  rw [atan2_cos dy dx hd, add_comm (dx ^ 2) (dy ^ 2)]

theorem sin_atan2_base (dy dx : ℝ) :
    Real.sin (atan2 dy dx) = dy / Real.sqrt (dy ^ 2 + dx ^ 2) := by
  rw [atan2_sin dy dx, add_comm (dx ^ 2) (dy ^ 2)]

theorem q_key (a b L : ℝ) (ha : a ≠ 0) (hL : L ≠ 0) :
    (b ^ 2 - a ^ 2 - L ^ 2) / (-2 * a * L) * (2 * a * L) = a ^ 2 + L ^ 2 - b ^ 2 := by
  have hne : (-2 * a * L) ≠ 0 := mul_ne_zero (mul_ne_zero (by norm_num) ha) hL
  rw [div_mul_eq_mul_div, div_eq_iff hne]
  ring

theorem q_bounds (a b L : ℝ) (ha : 0 < a) (hb : 0 ≤ b) (hL : 0 < L)
    (t1 : b ≤ a + L) (t2 : a ≤ b + L) (t3 : L ≤ a + b) :
    -1 ≤ (b ^ 2 - a ^ 2 - L ^ 2) / (-2 * a * L) ∧
    (b ^ 2 - a ^ 2 - L ^ 2) / (-2 * a * L) ≤ 1 := by
  have hden : (0:ℝ) < 2 * a * L := by positivity
  have hkey := q_key a b L (ne_of_gt ha) (ne_of_gt hL)
  constructor
  · by_contra hq
    push_neg at hq
    have hsq : b ^ 2 ≤ (a + L) ^ 2 := by nlinarith
    have hneg : ((b ^ 2 - a ^ 2 - L ^ 2) / (-2 * a * L) + 1) * (2 * a * L) < 0 :=
      mul_neg_of_neg_of_pos (by linarith) hden
    nlinarith
  · by_contra hq
    push_neg at hq
    have hsq : (a - L) ^ 2 ≤ b ^ 2 := sq_le_sq' (by linarith) (by linarith)
    have hpos : ((b ^ 2 - a ^ 2 - L ^ 2) / (-2 * a * L) - 1) * (2 * a * L) > 0 :=
      mul_pos (by linarith) hden
    nlinarith

theorem passive_apex_core (dx dy a b : ℝ) (hd : ¬(dx = 0 ∧ dy = 0)) (ha : 0 ≤ a) (hb : 0 ≤ b)
    (t1 : b ≤ a + Real.sqrt (dy ^ 2 + dx ^ 2))
    (t2 : a ≤ b + Real.sqrt (dy ^ 2 + dx ^ 2))
    (t3 : Real.sqrt (dy ^ 2 + dx ^ 2) ≤ a + b) :
    (a * Real.cos (atan2 dy dx +
        Real.arccos ((b ^ 2 - a ^ 2 - Real.sqrt (dy ^ 2 + dx ^ 2) ^ 2) /
          (-2 * a * Real.sqrt (dy ^ 2 + dx ^ 2))))) ^ 2 +
      (a * Real.sin (atan2 dy dx +
        Real.arccos ((b ^ 2 - a ^ 2 - Real.sqrt (dy ^ 2 + dx ^ 2) ^ 2) /
          (-2 * a * Real.sqrt (dy ^ 2 + dx ^ 2))))) ^ 2 = a ^ 2 ∧
    (a * Real.cos (atan2 dy dx +
        Real.arccos ((b ^ 2 - a ^ 2 - Real.sqrt (dy ^ 2 + dx ^ 2) ^ 2) /
          (-2 * a * Real.sqrt (dy ^ 2 + dx ^ 2)))) - dx) ^ 2 +
      (a * Real.sin (atan2 dy dx +
        Real.arccos ((b ^ 2 - a ^ 2 - Real.sqrt (dy ^ 2 + dx ^ 2) ^ 2) /
          (-2 * a * Real.sqrt (dy ^ 2 + dx ^ 2)))) - dy) ^ 2 = b ^ 2 := by
  rcases eq_or_lt_of_le ha with haeq | hapos
  · constructor
    · rw [← haeq]
      ring
    · rw [← haeq]
      have hb2 : b ^ 2 = dy ^ 2 + dx ^ 2 := by
        have hLb : Real.sqrt (dy ^ 2 + dx ^ 2) = b := by
          rw [← haeq] at t1 t3
          exact le_antisymm (by linarith) (by linarith)
        rw [← hLb, Real.sq_sqrt (by positivity)]
      linear_combination -hb2
  set L := Real.sqrt (dy ^ 2 + dx ^ 2) with hLdef
  set q := (b ^ 2 - a ^ 2 - L ^ 2) / (-2 * a * L) with hqdef
  have hLpos : 0 < L := base_len_pos dx dy hd
  have hL2 : L ^ 2 = dy ^ 2 + dx ^ 2 := Real.sq_sqrt (by positivity)
  have hLne : L ≠ 0 := ne_of_gt hLpos
  obtain ⟨hq1, hq2⟩ := q_bounds a b L hapos hb hLpos t1 t2 t3
  rw [← hqdef] at hq1 hq2
  have hkey : q * (2 * a * L) = a ^ 2 + L ^ 2 - b ^ 2 := by
    rw [hqdef]
    exact q_key a b L (ne_of_gt hapos) hLne
  have hs2 : Real.sqrt (1 - q ^ 2) ^ 2 = 1 - q ^ 2 := Real.sq_sqrt (by nlinarith)
  set s := Real.sqrt (1 - q ^ 2) with hsdef
  have hcosth : Real.cos (Real.arccos q) = q := Real.cos_arccos hq1 hq2
  have hsinth : Real.sin (Real.arccos q) = s := Real.sin_arccos q
  have hca : Real.cos (atan2 dy dx) = dx / L := cos_atan2_base dy dx hd
  have hsa : Real.sin (atan2 dy dx) = dy / L := sin_atan2_base dy dx
  have hcos_sum : Real.cos (atan2 dy dx + Real.arccos q) = (dx * q - dy * s) / L := by
    rw [Real.cos_add, hca, hsa, hcosth, hsinth]
    ring
  have hsin_sum : Real.sin (atan2 dy dx + Real.arccos q) = (dy * q + dx * s) / L := by
    rw [Real.sin_add, hca, hsa, hcosth, hsinth]
    ring
  constructor
  · rw [hcos_sum, hsin_sum]
    field_simp
    linear_combination (a ^ 2 * (dx ^ 2 + dy ^ 2)) * hs2 - a ^ 2 * hL2
  · rw [hcos_sum, hsin_sum]
    field_simp
    linear_combination (a ^ 2 * (dx ^ 2 + dy ^ 2)) * hs2 - (dx ^ 2 + dy ^ 2) * hkey -
      b ^ 2 * hL2

theorem dist_from_polar (x0 y0 a phi : ℝ) (ha : 0 ≤ a) :
    ptDist ⟨x0, y0⟩ ⟨x0 + a * Real.cos phi, y0 + a * Real.sin phi⟩ = a := by
  show Real.sqrt ((y0 + a * Real.sin phi - y0) ^ 2 + (x0 + a * Real.cos phi - x0) ^ 2) = a
  rw [show (y0 + a * Real.sin phi - y0) ^ 2 + (x0 + a * Real.cos phi - x0) ^ 2 = a ^ 2 from by
    linear_combination a ^ 2 * Real.sin_sq_add_cos_sq phi]
  exact Real.sqrt_sq ha

theorem dist_from_polar_other (x0 y0 x1 y1 a c s b : ℝ) (hb : 0 ≤ b)
    (h : (a * c - (x1 - x0)) ^ 2 + (a * s - (y1 - y0)) ^ 2 = b ^ 2) :
    ptDist ⟨x1, y1⟩ ⟨x0 + a * c, y0 + a * s⟩ = b := by
  show Real.sqrt ((y0 + a * s - y1) ^ 2 + (x0 + a * c - x1) ^ 2) = b
  rw [show (y0 + a * s - y1) ^ 2 + (x0 + a * c - x1) ^ 2 = b ^ 2 from by linear_combination h]
  exact Real.sqrt_sq hb

/-- Claim C4: the passive-segment triangle law.  For distinct `p0`, `p1`
and lengths satisfying the triangle inequality with the base
`|p1 - p0|`, the apex returned by `PassiveSegment.forward` lies at
distance `len0` from `p0` and `len1` from `p1` — exactly, in the
real-number model. -/
theorem claim_C4_passive_triangle (p0 p1 : Point) (len0 len1 : ℝ)
    (hne : p0 ≠ p1) (h0 : 0 ≤ len0) (h1 : 0 ≤ len1)
    (t1 : len1 ≤ len0 + ptDist p0 p1) (t2 : len0 ≤ len1 + ptDist p0 p1)
    (t3 : ptDist p0 p1 ≤ len0 + len1) :
    ptDist p0 (PassiveSegment.forward ⟨p0, p1, len0, len1⟩).p2 = len0 ∧
    ptDist p1 (PassiveSegment.forward ⟨p0, p1, len0, len1⟩).p2 = len1 := by
  obtain ⟨x0, y0⟩ := p0
  obtain ⟨x1, y1⟩ := p1
  have hd : ¬(x1 - x0 = 0 ∧ y1 - y0 = 0) := by
    rintro ⟨hx, hy⟩
    refine hne ?_
    simp only [Point.mk.injEq]
    exact ⟨by linarith, by linarith⟩
  have hLr : ptDist ⟨x0, y0⟩ ⟨x1, y1⟩ = Real.sqrt ((y1 - y0) ^ 2 + (x1 - x0) ^ 2) := rfl
  rw [hLr] at t1 t2 t3
  have hp2 : (PassiveSegment.forward ⟨⟨x0, y0⟩, ⟨x1, y1⟩, len0, len1⟩).p2 =
      ⟨x0 + len0 * Real.cos (atan2 (y1 - y0) (x1 - x0) +
          Real.arccos ((len1 ^ 2 - len0 ^ 2 - Real.sqrt ((y1 - y0) ^ 2 + (x1 - x0) ^ 2) ^ 2) /
            (-2 * len0 * Real.sqrt ((y1 - y0) ^ 2 + (x1 - x0) ^ 2)))),
       y0 + len0 * Real.sin (atan2 (y1 - y0) (x1 - x0) +
          Real.arccos ((len1 ^ 2 - len0 ^ 2 - Real.sqrt ((y1 - y0) ^ 2 + (x1 - x0) ^ 2) ^ 2) /
            (-2 * len0 * Real.sqrt ((y1 - y0) ^ 2 + (x1 - x0) ^ 2))))⟩ := rfl
  obtain ⟨hc1, hc2⟩ :=
    passive_apex_core (x1 - x0) (y1 - y0) len0 len1 hd h0 h1 t1 t2 t3
  constructor
  · rw [hp2]
    exact dist_from_polar x0 y0 len0 _ h0
  · rw [hp2]
    exact dist_from_polar_other x0 y0 x1 y1 len0 _ _ len1 h1 hc2

/-- Witness for C4: the isoceles triangle with base `(0,0)`–`(2,0)` and
legs `√2` satisfies the hypotheses, and the apex lies at distance `√2`
from both base points. -/
theorem claim_C4_witness :
    ((⟨0, 0⟩ : Point) ≠ ⟨2, 0⟩) ∧
    ptDist ⟨0, 0⟩ ⟨2, 0⟩ ≤ Real.sqrt 2 + Real.sqrt 2 ∧
    ptDist ⟨0, 0⟩ (PassiveSegment.forward ⟨⟨0, 0⟩, ⟨2, 0⟩, Real.sqrt 2, Real.sqrt 2⟩).p2 =
      Real.sqrt 2 ∧
    ptDist ⟨2, 0⟩ (PassiveSegment.forward ⟨⟨0, 0⟩, ⟨2, 0⟩, Real.sqrt 2, Real.sqrt 2⟩).p2 =
      Real.sqrt 2 := by
  have hd2 : ptDist (⟨0, 0⟩ : Point) ⟨2, 0⟩ = 2 := by
    show Real.sqrt (((0:ℝ) - 0) ^ 2 + ((2:ℝ) - 0) ^ 2) = 2
    rw [show ((0:ℝ) - 0) ^ 2 + ((2:ℝ) - 0) ^ 2 = 2 ^ 2 by norm_num]
    exact Real.sqrt_sq (by norm_num)
  have hne : (⟨0, 0⟩ : Point) ≠ ⟨2, 0⟩ := by
    intro h
    rw [Point.mk.injEq] at h
    exact absurd h.1 (by norm_num)
  have h2nn : (0:ℝ) ≤ Real.sqrt 2 := Real.sqrt_nonneg 2
  have hs2 : Real.sqrt 2 * Real.sqrt 2 = 2 := Real.mul_self_sqrt (by norm_num)
  have h1le : (1:ℝ) ≤ Real.sqrt 2 := by nlinarith
  have ht1 : Real.sqrt 2 ≤ Real.sqrt 2 + ptDist ⟨0, 0⟩ ⟨2, 0⟩ := by rw [hd2]; linarith
  have ht3 : ptDist (⟨0, 0⟩ : Point) ⟨2, 0⟩ ≤ Real.sqrt 2 + Real.sqrt 2 := by
    rw [hd2]; linarith
  obtain ⟨c1, c2⟩ := claim_C4_passive_triangle ⟨0, 0⟩ ⟨2, 0⟩ (Real.sqrt 2) (Real.sqrt 2)
    hne h2nn h2nn ht1 ht1 ht3
  exact ⟨hne, ht3, c1, c2⟩

/-- Claim C5: motor-segment postconditions.  `forward` is a pure function
of its input, its output is exactly
`p0 + len * (cos (alpha + theta), sin (alpha + theta))` with
`alpha = atan2 (p1.y - p0.y) (p1.x - p0.x)`; the output lies at distance
`len` from `p0`, and the direction of `p2 - p0` is the direction of
`p1 - p0` rotated by `theta` (an equality of angles modulo `2*pi`). -/
theorem claim_C5_motor_postconditions (p0 p1 : Point) (theta len : ℝ) (hlen : 0 < len) :
    MotorSegment.forward ⟨p0, p1, theta, len⟩ =
      ⟨⟨p0.x + len * Real.cos (atan2 (p1.y - p0.y) (p1.x - p0.x) + theta),
        p0.y + len * Real.sin (atan2 (p1.y - p0.y) (p1.x - p0.x) + theta)⟩⟩ ∧
    ptDist p0 (MotorSegment.forward ⟨p0, p1, theta, len⟩).p2 = len ∧
    (Complex.arg (toC (MotorSegment.forward ⟨p0, p1, theta, len⟩).p2 - toC p0) : Real.Angle) =
      (Complex.arg (toC p1 - toC p0) : Real.Angle) + (theta : Real.Angle) := by
  obtain ⟨x0, y0⟩ := p0
  obtain ⟨x1, y1⟩ := p1
  refine ⟨rfl, ?_, ?_⟩
  · have hp2 : (MotorSegment.forward ⟨⟨x0, y0⟩, ⟨x1, y1⟩, theta, len⟩).p2 =
        ⟨x0 + len * Real.cos (atan2 (y1 - y0) (x1 - x0) + theta),
         y0 + len * Real.sin (atan2 (y1 - y0) (x1 - x0) + theta)⟩ := rfl
    rw [hp2]
    exact dist_from_polar x0 y0 len _ hlen.le
  · set phi := atan2 (y1 - y0) (x1 - x0) + theta with hphidef
    have hz : toC (MotorSegment.forward ⟨⟨x0, y0⟩, ⟨x1, y1⟩, theta, len⟩).p2 - toC ⟨x0, y0⟩ =
        (len : ℂ) * (Real.cos phi + Real.sin phi * Complex.I) := by
      have hp2 : (MotorSegment.forward ⟨⟨x0, y0⟩, ⟨x1, y1⟩, theta, len⟩).p2 =
          ⟨x0 + len * Real.cos phi, y0 + len * Real.sin phi⟩ := rfl
      rw [hp2]
      apply Complex.ext <;>
        simp only [toC, Complex.sub_re, Complex.sub_im, Complex.add_re, Complex.add_im,
          Complex.mul_re, Complex.mul_im, Complex.ofReal_re, Complex.ofReal_im,
          Complex.I_re, Complex.I_im] <;> ring
    rw [hz]
    have harg := Complex.arg_mul_cos_add_sin_mul_I_coe_angle hlen ((phi : ℝ) : Real.Angle)
    rw [Real.Angle.cos_coe, Real.Angle.sin_coe] at harg
    rw [harg]
    have hdir : toC (⟨x1, y1⟩ : Point) - toC ⟨x0, y0⟩ = (⟨x1 - x0, y1 - y0⟩ : ℂ) := by
      apply Complex.ext <;> simp [toC]
    rw [hdir, hphidef]
    show ((atan2 (y1 - y0) (x1 - x0) + theta : ℝ) : Real.Angle) =
      ((Complex.arg ⟨x1 - x0, y1 - y0⟩ : ℝ) : Real.Angle) + (theta : Real.Angle)
    rw [Real.Angle.coe_add, atan2]

theorem reflect_polar (x0 y0 x1 y1 u v : ℝ)
    (hden : (x1 - x0) ^ 2 + (y1 - y0) ^ 2 ≠ 0) :
    reflectAcross ⟨x0, y0⟩ ⟨x1, y1⟩ ⟨x0 + u, y0 + v⟩ =
      ⟨x0 + (((x1 - x0) ^ 2 - (y1 - y0) ^ 2) * u + 2 * (x1 - x0) * (y1 - y0) * v) /
          ((x1 - x0) ^ 2 + (y1 - y0) ^ 2),
       y0 + (2 * (x1 - x0) * (y1 - y0) * u - ((x1 - x0) ^ 2 - (y1 - y0) ^ 2) * v) /
          ((x1 - x0) ^ 2 + (y1 - y0) ^ 2)⟩ := by
  simp only [reflectAcross]
  rw [Point.mk.injEq]
  constructor <;> ring_nf

set_option maxHeartbeats 1600000 in
/-- Claim C6: swap symmetry of the passive segment. -/
theorem claim_C6_swap_symmetry (p0 p1 : Point) (len0 len1 : ℝ)
    (hne : p0 ≠ p1) (h0 : 0 < len0) (h1 : 0 < len1)
    (t1 : len1 ≤ len0 + ptDist p0 p1) (t2 : len0 ≤ len1 + ptDist p0 p1)
    (t3 : ptDist p0 p1 ≤ len0 + len1) :
    (PassiveSegment.forward ⟨p1, p0, len1, len0⟩).p2 =
      reflectAcross p0 p1 (PassiveSegment.forward ⟨p0, p1, len0, len1⟩).p2 := by
  obtain ⟨x0, y0⟩ := p0
  obtain ⟨x1, y1⟩ := p1
  have hd : ¬(x1 - x0 = 0 ∧ y1 - y0 = 0) := by
    rintro ⟨hx, hy⟩
    refine hne ?_
    simp only [Point.mk.injEq]
    exact ⟨by linarith, by linarith⟩
  have hd' : ¬(x0 - x1 = 0 ∧ y0 - y1 = 0) := by
    rintro ⟨hx, hy⟩
    exact hd ⟨by linarith, by linarith⟩
  have hLr : ptDist ⟨x0, y0⟩ ⟨x1, y1⟩ = Real.sqrt ((y1 - y0) ^ 2 + (x1 - x0) ^ 2) := rfl
  rw [hLr] at t1 t2 t3
  set L := Real.sqrt ((y1 - y0) ^ 2 + (x1 - x0) ^ 2) with hLdef
  have hLpos : 0 < L := base_len_pos (x1 - x0) (y1 - y0) hd
  have hLne : L ≠ 0 := ne_of_gt hLpos
  have hL2 : L ^ 2 = (y1 - y0) ^ 2 + (x1 - x0) ^ 2 := Real.sq_sqrt (by positivity)
  have hden : (x1 - x0) ^ 2 + (y1 - y0) ^ 2 ≠ 0 := by
    intro hc
    have hzero : L ^ 2 = 0 := by
      rw [hL2]
      linear_combination hc
    nlinarith [mul_pos hLpos hLpos, hzero]
  have hL' : Real.sqrt ((y0 - y1) ^ 2 + (x0 - x1) ^ 2) = L := by
    rw [hLdef]
    congr 1
    ring
  set q0 := (len1 ^ 2 - len0 ^ 2 - L ^ 2) / (-2 * len0 * L) with hq0def
  set q1 := (len0 ^ 2 - len1 ^ 2 - L ^ 2) / (-2 * len1 * L) with hq1def
  obtain ⟨hq01, hq02⟩ := q_bounds len0 len1 L h0 h1.le hLpos t1 t2 t3
  obtain ⟨hq11, hq12⟩ := q_bounds len1 len0 L h1 h0.le hLpos t2 t1 (by linarith)
  rw [← hq0def] at hq01 hq02
  rw [← hq1def] at hq11 hq12
  have hkey0 : q0 * (2 * len0 * L) = len0 ^ 2 + L ^ 2 - len1 ^ 2 := by
    rw [hq0def]
    exact q_key len0 len1 L (ne_of_gt h0) hLne
  have hkey1 : q1 * (2 * len1 * L) = len1 ^ 2 + L ^ 2 - len0 ^ 2 := by
    rw [hq1def]
    exact q_key len1 len0 L (ne_of_gt h1) hLne
  set s0 := Real.sqrt (1 - q0 ^ 2) with hs0def
  set s1 := Real.sqrt (1 - q1 ^ 2) with hs1def
  have hs0sq : s0 ^ 2 = 1 - q0 ^ 2 := Real.sq_sqrt (by nlinarith)
  have hs1sq : s1 ^ 2 = 1 - q1 ^ 2 := Real.sq_sqrt (by nlinarith)
  have hs0nn : 0 ≤ s0 := Real.sqrt_nonneg _
  have hs1nn : 0 ≤ s1 := Real.sqrt_nonneg _
  have key1 : len0 * q0 + len1 * q1 = L := by
    have h2L : (2 * L) ≠ 0 := mul_ne_zero two_ne_zero hLne
    apply mul_right_cancel₀ h2L
    linear_combination hkey0 + hkey1
  have key2 : len0 * s0 = len1 * s1 := by
    have hsq : (len0 * s0) ^ 2 = (len1 * s1) ^ 2 := by
      have expand : (len0 * s0) ^ 2 * (4 * L ^ 2) = (len1 * s1) ^ 2 * (4 * L ^ 2) := by
        rw [mul_pow, mul_pow, hs0sq, hs1sq]
        linear_combination (-(q0 * (2 * len0 * L) + (len0 ^ 2 + L ^ 2 - len1 ^ 2))) * hkey0 +
          (q1 * (2 * len1 * L) + (len1 ^ 2 + L ^ 2 - len0 ^ 2)) * hkey1
      have h4L : (4 * L ^ 2) ≠ 0 := by positivity
      exact mul_right_cancel₀ h4L expand
    calc len0 * s0 = Real.sqrt ((len0 * s0) ^ 2) :=
          (Real.sqrt_sq (mul_nonneg h0.le hs0nn)).symm
      _ = Real.sqrt ((len1 * s1) ^ 2) := by rw [hsq]
      _ = len1 * s1 := Real.sqrt_sq (mul_nonneg h1.le hs1nn)
  have hca : Real.cos (atan2 (y1 - y0) (x1 - x0)) = (x1 - x0) / L :=
    cos_atan2_base _ _ hd
  have hsa : Real.sin (atan2 (y1 - y0) (x1 - x0)) = (y1 - y0) / L :=
    sin_atan2_base _ _
  have hca' : Real.cos (atan2 (y0 - y1) (x0 - x1)) = (x0 - x1) / L := by
    rw [cos_atan2_base _ _ hd', hL']
  have hsa' : Real.sin (atan2 (y0 - y1) (x0 - x1)) = (y0 - y1) / L := by
    rw [sin_atan2_base _ _, hL']
  have hc0 : Real.cos (Real.arccos q0) = q0 := Real.cos_arccos hq01 hq02
  have hs0v : Real.sin (Real.arccos q0) = s0 := Real.sin_arccos q0
  have hc1 : Real.cos (Real.arccos q1) = q1 := Real.cos_arccos hq11 hq12
  have hs1v : Real.sin (Real.arccos q1) = s1 := Real.sin_arccos q1
  have hfwd : (PassiveSegment.forward ⟨⟨x0, y0⟩, ⟨x1, y1⟩, len0, len1⟩).p2 =
      ⟨x0 + len0 * Real.cos (atan2 (y1 - y0) (x1 - x0) + Real.arccos q0),
       y0 + len0 * Real.sin (atan2 (y1 - y0) (x1 - x0) + Real.arccos q0)⟩ := rfl
  have hswp : (PassiveSegment.forward ⟨⟨x1, y1⟩, ⟨x0, y0⟩, len1, len0⟩).p2 =
      ⟨x1 + len1 * Real.cos (atan2 (y0 - y1) (x0 - x1) +
          Real.arccos ((len0 ^ 2 - len1 ^ 2 - Real.sqrt ((y0 - y1) ^ 2 + (x0 - x1) ^ 2) ^ 2) /
            (-2 * len1 * Real.sqrt ((y0 - y1) ^ 2 + (x0 - x1) ^ 2)))),
       y1 + len1 * Real.sin (atan2 (y0 - y1) (x0 - x1) +
          Real.arccos ((len0 ^ 2 - len1 ^ 2 - Real.sqrt ((y0 - y1) ^ 2 + (x0 - x1) ^ 2) ^ 2) /
            (-2 * len1 * Real.sqrt ((y0 - y1) ^ 2 + (x0 - x1) ^ 2))))⟩ := rfl
  rw [hL'] at hswp
  rw [← hq1def] at hswp
  rw [hswp, hfwd]
  set A0 := atan2 (y1 - y0) (x1 - x0) + Real.arccos q0 with hA0def
  set A1 := atan2 (y0 - y1) (x0 - x1) + Real.arccos q1 with hA1def
  have step1 : Real.cos A0 = ((x1 - x0) * q0 - (y1 - y0) * s0) / L := by
    rw [hA0def, Real.cos_add, hca, hsa, hc0, hs0v]
    ring
  have step2 : Real.sin A0 = ((y1 - y0) * q0 + (x1 - x0) * s0) / L := by
    rw [hA0def, Real.sin_add, hca, hsa, hc0, hs0v]
    ring
  have step3 : Real.cos A1 = (-(x1 - x0) * q1 + (y1 - y0) * s1) / L := by
    rw [hA1def, Real.cos_add, hca', hsa', hc1, hs1v]
    ring
  have step4 : Real.sin A1 = (-(y1 - y0) * q1 - (x1 - x0) * s1) / L := by
    rw [hA1def, Real.sin_add, hca', hsa', hc1, hs1v]
    ring
  have m1 : L * Real.cos A0 = (x1 - x0) * q0 - (y1 - y0) * s0 := by
    rw [step1]
    field_simp
  have m2 : L * Real.sin A0 = (y1 - y0) * q0 + (x1 - x0) * s0 := by
    rw [step2]
    field_simp
  have m3 : L * Real.cos A1 = -(x1 - x0) * q1 + (y1 - y0) * s1 := by
    rw [step3]
    field_simp
  have m4 : L * Real.sin A1 = -(y1 - y0) * q1 - (x1 - x0) * s1 := by
    rw [step4]
    field_simp
  rw [reflect_polar x0 y0 x1 y1 (len0 * Real.cos A0) (len0 * Real.sin A0) hden]
  rw [Point.mk.injEq]
  clear_value L q0 q1 s0 s1 A0 A1
  constructor
  · have hx : x1 + len1 * Real.cos A1 - x0 =
        (((x1 - x0) ^ 2 - (y1 - y0) ^ 2) * (len0 * Real.cos A0) +
          2 * (x1 - x0) * (y1 - y0) * (len0 * Real.sin A0)) /
          ((x1 - x0) ^ 2 + (y1 - y0) ^ 2) := by
      rw [eq_div_iff hden]
      apply mul_left_cancel₀ hLne
      linear_combination (-(len0 * ((x1 - x0) ^ 2 - (y1 - y0) ^ 2))) * m1 -
        (2 * (x1 - x0) * (y1 - y0) * len0) * m2 +
        (len1 * ((x1 - x0) ^ 2 + (y1 - y0) ^ 2)) * m3 -
        (((x1 - x0) ^ 2 + (y1 - y0) ^ 2) * (x1 - x0)) * key1 -
        (((x1 - x0) ^ 2 + (y1 - y0) ^ 2) * (y1 - y0)) * key2
    linarith [hx]
  · have hy : y1 + len1 * Real.sin A1 - y0 =
        (2 * (x1 - x0) * (y1 - y0) * (len0 * Real.cos A0) -
          ((x1 - x0) ^ 2 - (y1 - y0) ^ 2) * (len0 * Real.sin A0)) /
          ((x1 - x0) ^ 2 + (y1 - y0) ^ 2) := by
      rw [eq_div_iff hden]
      apply mul_left_cancel₀ hLne
      linear_combination (-(2 * (x1 - x0) * (y1 - y0) * len0)) * m1 +
        (len0 * ((x1 - x0) ^ 2 - (y1 - y0) ^ 2)) * m2 +
        (len1 * ((x1 - x0) ^ 2 + (y1 - y0) ^ 2)) * m4 -
        (((x1 - x0) ^ 2 + (y1 - y0) ^ 2) * (y1 - y0)) * key1 +
        (((x1 - x0) ^ 2 + (y1 - y0) ^ 2) * (x1 - x0)) * key2
    linarith [hy]

/-- Witness for C5: the motor test case `p0=(0,0)`, `p1=(1,0)`,
`theta=pi/4`, `len=1`. -/
theorem claim_C5_witness :
    (0:ℝ) < 1 ∧
    (MotorSegment.forward ⟨⟨0, 0⟩, ⟨1, 0⟩, Real.pi / 4, 1⟩ =
        ⟨⟨(0:ℝ) + 1 * Real.cos (atan2 ((0:ℝ) - 0) ((1:ℝ) - 0) + Real.pi / 4),
          (0:ℝ) + 1 * Real.sin (atan2 ((0:ℝ) - 0) ((1:ℝ) - 0) + Real.pi / 4)⟩⟩ ∧
      ptDist ⟨0, 0⟩ (MotorSegment.forward ⟨⟨0, 0⟩, ⟨1, 0⟩, Real.pi / 4, 1⟩).p2 = 1 ∧
      (Complex.arg (toC (MotorSegment.forward ⟨⟨0, 0⟩, ⟨1, 0⟩, Real.pi / 4, 1⟩).p2 -
          toC ⟨0, 0⟩) : Real.Angle) =
        (Complex.arg (toC ⟨1, 0⟩ - toC ⟨0, 0⟩) : Real.Angle) + ((Real.pi / 4 : ℝ) : Real.Angle)) :=
  ⟨by norm_num, claim_C5_motor_postconditions ⟨0, 0⟩ ⟨1, 0⟩ (Real.pi / 4) 1 (by norm_num)⟩

/-- Witness for C6: the isoceles triangle with base `(0,0)`–`(2,0)` and
legs `√2`; the swapped call returns the reflection of the original apex
across the base line. -/
theorem claim_C6_witness :
    (0:ℝ) < Real.sqrt 2 ∧
    ptDist ⟨0, 0⟩ ⟨2, 0⟩ ≤ Real.sqrt 2 + Real.sqrt 2 ∧
    (PassiveSegment.forward ⟨⟨2, 0⟩, ⟨0, 0⟩, Real.sqrt 2, Real.sqrt 2⟩).p2 =
      reflectAcross ⟨0, 0⟩ ⟨2, 0⟩
        (PassiveSegment.forward ⟨⟨0, 0⟩, ⟨2, 0⟩, Real.sqrt 2, Real.sqrt 2⟩).p2 := by
  have hd2 : ptDist (⟨0, 0⟩ : Point) ⟨2, 0⟩ = 2 := by
    show Real.sqrt (((0:ℝ) - 0) ^ 2 + ((2:ℝ) - 0) ^ 2) = 2
    rw [show ((0:ℝ) - 0) ^ 2 + ((2:ℝ) - 0) ^ 2 = 2 ^ 2 by norm_num]
    exact Real.sqrt_sq (by norm_num)
  have hne : (⟨0, 0⟩ : Point) ≠ ⟨2, 0⟩ := by
    intro h
    rw [Point.mk.injEq] at h
    exact absurd h.1 (by norm_num)
  have hs2 : Real.sqrt 2 * Real.sqrt 2 = 2 := Real.mul_self_sqrt (by norm_num)
  have h2nn : (0:ℝ) ≤ Real.sqrt 2 := Real.sqrt_nonneg 2
  have h2pos : (0:ℝ) < Real.sqrt 2 := by nlinarith
  have h1le : (1:ℝ) ≤ Real.sqrt 2 := by nlinarith
  have ht1 : Real.sqrt 2 ≤ Real.sqrt 2 + ptDist ⟨0, 0⟩ ⟨2, 0⟩ := by rw [hd2]; linarith
  have ht3 : ptDist (⟨0, 0⟩ : Point) ⟨2, 0⟩ ≤ Real.sqrt 2 + Real.sqrt 2 := by
    rw [hd2]; linarith
  exact ⟨h2pos, ht3,
    claim_C6_swap_symmetry ⟨0, 0⟩ ⟨2, 0⟩ (Real.sqrt 2) (Real.sqrt 2)
      hne h2pos h2pos ht1 ht1 ht3⟩
